import Mathlib

/-!
Shallow embedding of the Bin-Transfer-Web inventory handlers.

Source files:
* `src/unnamed/part_001` — CommonJS report handler with the hand-rolled CSV
  parser `parseCsvToObjects`, `toNumber`, and the alias-based field normalizer.
* `src/unnamed/part_002` — live pipeline (`otList` auth probing, `listAll`
  pagination, `firstCost`, the join / row-build loop with the `qtygt`,
  `binPrefix` and `location` filters).
* `src/api/ordertime/live.js` — variants of the same live pipeline.

JavaScript values that flow through the normalizers are modelled by `JVal`
(undefined, null, string, finite number, NaN).  Finite numbers are modelled
as rationals; the pipelines perform no arithmetic that could overflow or
produce non-rational results.  Booleans and nested objects never reach the
normalizer in these pipelines, so they are omitted from `JVal`; the nested
reference objects of the live pipeline (`LotOrSerialRef.Id` etc.) are
modelled as explicit optional fields of the balance record.
-/

inductive JVal where
  | undefined
  | null
  | str (s : String)
  | num (q : Rat)
  | nan
deriving DecidableEq

/-- JavaScript truthiness for the values of `JVal`:
`undefined`, `null`, `""`, `0` and `NaN` are falsy. -/
def truthy : JVal → Bool
  | .undefined => false
  | .null => false
  | .str s => decide (s ≠ "")
  | .num q => decide (q ≠ 0)
  | .nan => false

/-- `a || b` in JavaScript: the first operand when it is truthy, else the second. -/
def jsOr (a b : JVal) : JVal := if truthy a then a else b

/-- JS `.trim()` modelled on the character list (strips leading and trailing
whitespace). -/
def trimList (cs : List Char) : List Char :=
  ((cs.dropWhile Char.isWhitespace).reverse.dropWhile Char.isWhitespace).reverse

def jsTrim (s : String) : String := ⟨trimList s.data⟩

/-- Digits to a natural number, most significant first. -/
def digitsToNat (cs : List Char) : Nat :=
  cs.foldl (fun a c => a * 10 + (c.toNat - 48)) 0

/-- Split a character list at the first `e`/`E` (exponent marker). -/
def splitAtExp : List Char → (List Char × Option (List Char))
  | [] => ([], none)
  | c :: rest =>
    if c = 'e' ∨ c = 'E' then ([], some rest)
    else
      let (m, e) := splitAtExp rest
      (c :: m, e)

/-- Consume an optional leading sign; returns (isNegative, rest). -/
def takeSign : List Char → (Bool × List Char)
  | '-' :: rest => (true, rest)
  | '+' :: rest => (false, rest)
  | cs => (false, cs)

/-- Unsigned decimal mantissa: `123`, `123.45`, `.5`, `5.`. -/
def parseUnsignedDec (cs : List Char) : Option Rat :=
  let ip := cs.takeWhile Char.isDigit
  let rest := cs.dropWhile Char.isDigit
  match rest with
  | [] => if ip = [] then none else some (digitsToNat ip)
  | '.' :: fp =>
    if fp.all Char.isDigit ∧ (ip ≠ [] ∨ fp ≠ []) then
      some ((digitsToNat ip : Rat) + (digitsToNat fp : Rat) / ((10 ^ fp.length : Nat) : Rat))
    else none
  | _ => none

/-- JavaScript `Number(string)` restricted to the decimal grammar that these
pipelines feed it: optional whitespace, optional sign, decimal mantissa with
optional fraction and exponent.  `none` stands for a non-finite result (NaN,
`"Infinity"`); hex/octal/binary literals, which never occur in this
repository's data, also map to `none`. -/
def jsParseNumber (s : String) : Option Rat :=
  let cs := (jsTrim s).data
  if cs = [] then some 0
  else
    let (neg, cs1) := takeSign cs
    let (mant, expPart) := splitAtExp cs1
    match parseUnsignedDec mant with
    | none => none
    | some m =>
      let sm : Rat := if neg then -m else m
      match expPart with
      | none => some sm
      | some ecs =>
        let (eneg, eds) := takeSign ecs
        if eds ≠ [] ∧ eds.all Char.isDigit then
          let e := digitsToNat eds
          some (if eneg then sm / ((10 ^ e : Nat) : Rat) else sm * ((10 ^ e : Nat) : Rat))
        else none

/-- `String(x).replace(/[, ]/g, "")`: remove every comma and space. -/
def stripCS (s : String) : String :=
  ⟨s.data.filter (fun c => !(c = ',' || c = ' '))⟩

/-- `toNumber` from `src/unnamed/part_001` lines 73-77 (same function in
`part_000` lines 6-10):

    function toNumber(x) {
      if (x === undefined || x === null || x === "") return 0;
      const n = Number(String(x).replace(/[, ]/g, ""));
      return Number.isFinite(n) ? n : 0;
    }

For a finite number input, `String(x)` round-trips through `Number` and
contains no comma or space, so that case returns the number itself; `NaN`
prints as `"NaN"`, which is non-finite after re-parsing, hence `0`. -/
def toNumber : JVal → Rat
  | .undefined => 0
  | .null => 0
  | .str s =>
    if s = "" then 0
    else
      match jsParseNumber (stripCS s) with
      | some q => q
      | none => 0
  | .num q => q
  | .nan => 0

/-!
CSV parser from `src/unnamed/part_001` lines 4-71 (`parseCsvToObjects`).

The JS code first normalizes line endings with
`text.replace(/\r\n/g, "\n").replace(/\r/g, "\n")`, then splits the text into
records on unquoted newlines (tracking an in-quotes flag and skipping over a
doubled quote), and finally splits each record into fields with
`splitCsvLine`, zipping records against the trimmed header fields.
-/

/-- First normalization pass, `replace(/\r\n/g, "\n")`: every CRLF pair,
scanning left to right, becomes a single LF. -/
def replCRLF : List Char → List Char
  | [] => []
  | '\r' :: '\n' :: rest => '\n' :: replCRLF rest
  | c :: rest => c :: replCRLF rest

/-- Second normalization pass, `replace(/\r/g, "\n")`: every remaining CR
becomes LF. -/
def replCR (cs : List Char) : List Char :=
  cs.map (fun c => if c = '\r' then '\n' else c)

def normNewlines (cs : List Char) : List Char := replCR (replCRLF cs)

/-- The record-splitting loop of `parseCsvToObjects` (part_001 lines 40-58):

    let buf = ""; let inQ = false;
    for (i...) { const ch = text[i]; buf += ch;
      if (ch === '"') { if (text[i+1] === '"') i++; else inQ = !inQ; }
      if (ch === '\n' && !inQ) { records.push(buf.replace(/\n$/,"")); buf = ""; } }
    if (buf) records.push(buf);

Note that in the doubled-quote branch the code advances `i` past the second
quote WITHOUT appending it to `buf`, so a doubled quote survives this pass as
a single quote character. -/
def splitRecsAux : List Char → String → Bool → List String
  | [], buf, _ => if buf = "" then [] else [buf]
  | '"' :: '"' :: rest, buf, inQ => splitRecsAux rest (buf.push '"') inQ
  | '"' :: rest, buf, inQ => splitRecsAux rest (buf.push '"') (!inQ)
  | '\n' :: rest, buf, inQ =>
    if inQ then splitRecsAux rest (buf.push '\n') inQ
    else buf :: splitRecsAux rest "" false
  | c :: rest, buf, inQ => splitRecsAux rest (buf.push c) inQ

/-- The in-quotes flag left by the record-splitting scan. -/
def finalInQ : List Char → Bool → Bool
  | [], inQ => inQ
  | '"' :: '"' :: rest, inQ => finalInQ rest inQ
  | '"' :: rest, inQ => finalInQ rest (!inQ)
  | '\n' :: rest, inQ => finalInQ rest inQ
  | _ :: rest, inQ => finalInQ rest inQ

/-- The buffer left over after the record-splitting scan. -/
def finalBuf : List Char → String → Bool → String
  | [], buf, _ => buf
  | '"' :: '"' :: rest, buf, inQ => finalBuf rest (buf.push '"') inQ
  | '"' :: rest, buf, inQ => finalBuf rest (buf.push '"') (!inQ)
  | '\n' :: rest, buf, inQ =>
    if inQ then finalBuf rest (buf.push '\n') inQ
    else finalBuf rest "" false
  | c :: rest, buf, inQ => finalBuf rest (buf.push c) inQ

/-- `splitCsvLine` (part_001 lines 8-38): field splitting of a single record
with quote handling; inside quotes a doubled quote appends one literal quote. -/
def splitLineAux : List Char → String → Bool → List String
  | [], cur, _ => [cur]
  | '"' :: '"' :: rest, cur, true => splitLineAux rest (cur.push '"') true
  | '"' :: rest, cur, true => splitLineAux rest cur false
  | c :: rest, cur, true => splitLineAux rest (cur.push c) true
  | ',' :: rest, cur, false => cur :: splitLineAux rest "" false
  | '"' :: rest, cur, false => splitLineAux rest cur true
  | c :: rest, cur, false => splitLineAux rest (cur.push c) false

def splitCsvLine (line : String) : List String := splitLineAux line.data "" false

/-- JS object assignment `obj[k] = v`: overwrite an existing binding in place,
otherwise append. -/
def objSet (obj : List (String × String)) (k v : String) : List (String × String) :=
  if obj.any (fun p => p.1 = k) then
    obj.map (fun p => if p.1 = k then (k, v) else p)
  else obj ++ [(k, v)]

/-- `for (c...) obj[headers[c]] = (cols[c] ?? "").trim()` (part_001 lines 64-66). -/
def mkObj (headers cols : List String) : List (String × String) :=
  headers.enum.foldl (fun obj p => objSet obj p.2 (jsTrim (cols.getD p.1 ""))) []

/-- Records to row objects (part_001 lines 60-70): the first record gives the
trimmed headers; empty records are skipped (`if (!records[i]) continue`). -/
def rowsOfRecords : List String → List (List (String × String))
  | [] => []
  | h :: rest =>
    let headers := (splitCsvLine h).map jsTrim
    rest.filterMap (fun rec => if rec = "" then none else some (mkObj headers (splitCsvLine rec)))

/-- `parseCsvToObjects` (part_001 lines 4-71). -/
def parseCsvToObjects (text : String) : List (List (String × String)) :=
  rowsOfRecords (splitRecsAux (normNewlines text.data) "" false)

/-!
Report-pipeline field normalizer, `src/unnamed/part_001` lines 112-121.
A raw record is a total map from field name to JS value; a key that does not
occur in the source object maps to `undefined`.
-/

def RawRecord : Type := String → JVal

/-- The six-field output shape `{ item, serial, expiration, qty, cost, bin }`.
`qty` is always the result of a numeric coercion, hence a number; the other
five keep their JS value (`cost` is `null` or a number in the live pipeline
and a number in the report pipeline). -/
structure NormalizedRow where
  item : JVal
  serial : JVal
  expiration : JVal
  qty : Rat
  cost : JVal
  bin : JVal
deriving DecidableEq

/-- The `rowsRaw.map((r) => ...)` body of the report handler
(part_001 lines 112-121). -/
def normalizeReport (r : RawRecord) : NormalizedRow :=
  { item := jsOr (r "Item") (jsOr (r "SKU") (jsOr (r "Item (SKU)")
      (jsOr (r "Item Name") (jsOr (r "Product") (.str ""))))),
    serial := jsOr (r "Lot/Serial") (jsOr (r "LotSerial") (jsOr (r "Serial")
      (jsOr (r "IMEI") (jsOr (r "Lot / Serial") (.str ""))))),
    expiration := jsOr (r "Expiration Date") (jsOr (r "Expiry")
      (jsOr (r "Expiration") (.str ""))),
    qty := toNumber (jsOr (r "Qty") (jsOr (r "Quantity")
      (jsOr (r "On Hand") (r "Qty On Hand")))),
    cost := .num (toNumber (jsOr (r "Cost") (jsOr (r "Avg Cost") (r "Unit Cost")))),
    bin := jsOr (r "Bin") (jsOr (r "Location") (jsOr (r "Bin Location")
      (jsOr (r "Loc") (.str "")))) }

/-!
Live pipeline, `src/unnamed/part_002` (the CommonJS variant; the two variants
in `src/api/ordertime/live.js` build rows with the same expressions).

Entity records are modelled with the fields the pipeline reads.  Ids are JSON
numbers (`Rat`); a missing or null field of a joined entity is `undefined` /
absent, written with `JVal.undefined` for text fields and `Option` for numeric
fields and for the balance record's reference ids.
-/

structure LotRec where
  Id : Rat
  LotOrSerialNumber : JVal
  Serial : JVal
  IMEI : JVal
  ExpirationDate : JVal
  Expiry : JVal
deriving DecidableEq

structure ItemRec where
  Id : Rat
  Name : JVal
  ItemName : JVal
  LastPurchaseCost : Option Rat
  AverageCost : Option Rat
  StandardCost : Option Rat
deriving DecidableEq

structure BinRec where
  Id : Rat
  Name : JVal
deriving DecidableEq

/-- An inventory balance record.  `LotOrSerialRefId` models
`r?.LotOrSerialRef?.Id` (absent when the nested reference object or its `Id`
is missing), and similarly for the item and bin references; `LocationRefName`
models `r?.LocationRef?.Name`. -/
structure InvBalance where
  OnHand : Option Rat
  Qty : Option Rat
  LotOrSerialRefId : Option Rat
  LotOrSerialId : Option Rat
  ItemRefId : Option Rat
  ItemId : Option Rat
  BinRefId : Option Rat
  BinId : Option Rat
  LocationRefName : Option String
deriving DecidableEq

/-- `lot?.f` : optional chaining yields `undefined` on a null/undefined base. -/
def optField (o : Option α) (f : α → JVal) : JVal :=
  match o with
  | none => .undefined
  | some x => f x

/-- `a ?? b` for the reference ids: the first non-nullish operand. -/
def coalesce (a b : Option Rat) : Option Rat :=
  match a with
  | some v => some v
  | none => b

/-- `new Map(xs.map(x => [key x, x])).get(k)` — for duplicate keys the later
entry wins, as in a JS `Map`. -/
def jsMapGet (pairs : List (Rat × α)) (k : Rat) : Option α :=
  match pairs with
  | [] => none
  | (k', v) :: rest =>
    match jsMapGet rest k with
    | some v' => some v'
    | none => if k' = k then some v else none

/-- `Number(r.OnHand ?? r.Qty ?? 0)` (part_002 line 109). -/
def qtyOf (r : InvBalance) : Rat := ((coalesce r.OnHand r.Qty).getD 0)

def resolveLotId (r : InvBalance) : Option Rat := coalesce r.LotOrSerialRefId r.LotOrSerialId
def resolveItemId (r : InvBalance) : Option Rat := coalesce r.ItemRefId r.ItemId
def resolveBinId (r : InvBalance) : Option Rat := coalesce r.BinRefId r.BinId

/-- `lotId ? lotById.get(lotId) : null` (part_002 line 116): the lookup runs
only when the resolved id is truthy (a nonzero number). -/
def lookupByTruthyId (pairs : List (Rat × α)) (id : Option Rat) : Option α :=
  match id with
  | some v => if v = 0 then none else jsMapGet pairs v
  | none => none

def lotIndex (lots : List LotRec) : List (Rat × LotRec) := lots.map (fun l => (l.Id, l))
def itemIndex (items : List ItemRec) : List (Rat × ItemRec) := items.map (fun i => (i.Id, i))
def binIndex (bins : List BinRec) : List (Rat × BinRec) := bins.map (fun b => (b.Id, b))

def lookupLot (lots : List LotRec) (r : InvBalance) : Option LotRec :=
  lookupByTruthyId (lotIndex lots) (resolveLotId r)
def lookupItem (items : List ItemRec) (r : InvBalance) : Option ItemRec :=
  lookupByTruthyId (itemIndex items) (resolveItemId r)
def lookupBin (bins : List BinRec) (r : InvBalance) : Option BinRec :=
  lookupByTruthyId (binIndex bins) (resolveBinId r)

/-- `firstCost` (part_002 lines 67-72): probe `LastPurchaseCost`,
`AverageCost`, `StandardCost` in order; return the first value that is
neither null nor undefined, else `null`.  The argument is the joined item,
which may itself be null/undefined. -/
def firstCost (rec : Option ItemRec) : JVal :=
  match rec with
  | none => .null
  | some it =>
    match it.LastPurchaseCost with
    | some q => .num q
    | none =>
      match it.AverageCost with
      | some q => .num q
      | none =>
        match it.StandardCost with
        | some q => .num q
        | none => .null

/-- The `row = { ... }` object literal of the handler loop
(part_002 lines 120-127), as a function of the joined entities and the
resolved quantity. -/
def rowOf (lot : Option LotRec) (item : Option ItemRec) (bin : Option BinRec)
    (qty : Rat) : NormalizedRow :=
  { item := jsOr (optField item ItemRec.Name) (jsOr (optField item ItemRec.ItemName) (.str "")),
    serial := jsOr (optField lot LotRec.LotOrSerialNumber)
      (jsOr (optField lot LotRec.Serial) (jsOr (optField lot LotRec.IMEI) (.str ""))),
    expiration := jsOr (optField lot LotRec.ExpirationDate)
      (jsOr (optField lot LotRec.Expiry) (.str "")),
    qty := qty,
    cost := firstCost item,
    bin := jsOr (optField bin BinRec.Name) (.str "") }

/-- `row.bin.startsWith(binPrefix)`.  `row.bin` is a string in this pipeline
(`bin?.Name || ""`); the `String.prototype.startsWith` call presumes that. -/
def jsStartsWith (v : JVal) (p : String) : Bool :=
  match v with
  | .str s => p.data.isPrefixOf s.data
  | _ => false

/-- `binPrefix && row.bin && !row.bin.startsWith(binPrefix)`
(part_002 line 129; live.js line 146): the row is dropped exactly when the
`binPrefix` query parameter is set and truthy, the row's bin value is truthy,
and the bin value does not start with the prefix. -/
def binPfxExcludes (binPfx : Option String) (binVal : JVal) : Bool :=
  match binPfx with
  | none => false
  | some p => decide (p ≠ "") && truthy binVal && !(jsStartsWith binVal p)

/-- `location && r?.LocationRef?.Name && r.LocationRef.Name !== location`
(part_002 line 130). -/
def locExcludes (loc : Option String) (r : InvBalance) : Bool :=
  match loc, r.LocationRefName with
  | some l, some n => decide (l ≠ "") && decide (n ≠ "") && decide (n ≠ l)
  | _, _ => false

/-- `qty <= qtygt` where `qtygt = Number(searchParams.get("qtygt") ?? "0")`.
`none` stands for a NaN threshold, for which the comparison is false. -/
def jsLeOpt (q : Rat) (g : Option Rat) : Bool :=
  match g with
  | some t => decide (q ≤ t)
  | none => false

/-- Resolution of the `qtygt` query parameter (part_002 line 91):
`Number(url.searchParams.get("qtygt") ?? "0")`. -/
def qtygtOf (param : Option String) : Option Rat := jsParseNumber (param.getD "0")

/-- One iteration of the row-build loop (part_002 lines 108-132): skip when
the quantity does not exceed the threshold, build the row from the three
index lookups, then apply the `binPrefix` and `location` filters. -/
def keepRow (qtygt : Option Rat) (binPfx loc : Option String)
    (lots : List LotRec) (items : List ItemRec) (bins : List BinRec)
    (r : InvBalance) : Option NormalizedRow :=
  if jsLeOpt (qtyOf r) qtygt then none
  else if binPfxExcludes binPfx
      (rowOf (lookupLot lots r) (lookupItem items r) (lookupBin bins r) (qtyOf r)).bin then none
  else if locExcludes loc r then none
  else some (rowOf (lookupLot lots r) (lookupItem items r) (lookupBin bins r) (qtyOf r))

/-- The full row-build loop over the inventory balances. -/
def buildRows (qtygt : Option Rat) (binPfx loc : Option String)
    (lots : List LotRec) (items : List ItemRec) (bins : List BinRec)
    (balances : List InvBalance) : List NormalizedRow :=
  balances.filterMap (keepRow qtygt binPfx loc lots items bins)

/-!
Auth-scheme probing of `otList`, `src/unnamed/part_002` lines 29-51.
-/

inductive AuthScheme where
  | bearer
  | apiKeyHdr
  | xApiKeyUpper
  | xApiKeyLower
  | basic
deriving DecidableEq

/-- The header object built for each scheme (part_002 lines 30-39). -/
def schemeHeaders (apiKey basicB64 : String) : AuthScheme → List (String × String)
  | .bearer => [("Authorization", "Bearer " ++ apiKey), ("Content-Type", "application/json")]
  | .apiKeyHdr => [("ApiKey", apiKey), ("Content-Type", "application/json")]
  | .xApiKeyUpper => [("X-API-KEY", apiKey), ("Content-Type", "application/json")]
  | .xApiKeyLower => [("x-api-key", apiKey), ("Content-Type", "application/json")]
  | .basic => [("Authorization", "Basic " ++ basicB64), ("Content-Type", "application/json")]

/-- The `tries` array: four API-key schemes, plus HTTP Basic appended only
when `OT_BASIC_USER && OT_BASIC_PASS` is configured (part_002 lines 30-39). -/
def authTries (basicConfigured : Bool) : List AuthScheme :=
  [.bearer, .apiKeyHdr, .xApiKeyUpper, .xApiKeyLower] ++
    (if basicConfigured then [.basic] else [])

/-- A fetch response: HTTP status and text body. -/
structure FetchResp where
  status : Nat
  body : String
deriving DecidableEq

/-- `res.ok`: status in the 200-299 range. -/
def respOk (r : FetchResp) : Bool := decide (200 ≤ r.status) && decide (r.status ≤ 299)

def lowerStr (s : String) : String := ⟨s.data.map Char.toLower⟩

def containsSubAux (needle : List Char) : List Char → Bool
  | [] => needle.isPrefixOf ([] : List Char)
  | c :: rest => needle.isPrefixOf (c :: rest) || containsSubAux needle rest

/-- Substring containment, used to model a regex `test`. -/
def containsSub (hay needle : String) : Bool := containsSubAux needle.data hay.data

/-- `/incorrect api key|unauthorized|forbidden|invalid token/i.test(text)`
(part_002 line 46). -/
def isAuthFailureBody (s : String) : Bool :=
  let l := lowerStr s
  containsSub l "incorrect api key" || containsSub l "unauthorized" ||
    containsSub l "forbidden" || containsSub l "invalid token"

/-- Outcome of the `otList` auth loop, with the number of fetch calls issued. -/
inductive OtOutcome where
  | success (calls : Nat) (scheme : AuthScheme)
  | fatal (calls : Nat) (status : Nat) (body : String)
  | authExhausted (calls : Nat) (lastBody : String)
deriving DecidableEq

/-- The `for (const headers of tries)` loop of `otList` (part_002 lines
41-50): a success response returns immediately; a failure whose body matches
an auth-failure pattern advances to the next scheme; any other failure
throws with the status and body.  Exhausting the list throws an
auth-failed error carrying the last body.  `f` gives the response the
endpoint returns to each header scheme. -/
def otTryAuth (f : AuthScheme → FetchResp) : List AuthScheme → Nat → String → OtOutcome
  | [], n, lastText => .authExhausted n lastText
  | h :: rest, n, _ =>
    let r := f h
    if respOk r then .success (n + 1) h
    else if isAuthFailureBody r.body then otTryAuth f rest (n + 1) r.body
    else .fatal (n + 1) r.status r.body

/-- One `otList` call's auth behavior. -/
def otListAuth (basicConfigured : Bool) (f : AuthScheme → FetchResp) : OtOutcome :=
  otTryAuth f (authTries basicConfigured) 0 ""

/-!
Pagination of `listAll`, `src/unnamed/part_002` lines 53-65.

`f page` is the records array extracted from the page response
(`Array.isArray(data?.Records) ? data.Records : (Array.isArray(data) ? data : [])`).
The loop body is structural in a fuel argument; the handler enters the loop
at page 1, and since the loop stops no later than page 200, fuel 200
always suffices (the fuel-exhausted branch is unreachable from `listAll`).
-/

/-- `opts.pageSize || 500` (part_002 lines 24 and 60). -/
def effPageSize (o : Option Nat) : Nat :=
  match o with
  | some n => if n = 0 then 500 else n
  | none => 500

/-- The `while (true)` pagination loop: accumulate the page, stop on a page
shorter than the page size, else advance; `if (page > 200) break` stops after
page 200. -/
def listAllGo (f : Nat → List α) (ps : Nat) : Nat → Nat → List α
  | _, 0 => []
  | page, fuel + 1 =>
    let arr := f page
    if arr.length < ps then arr
    else if 200 ≤ page then arr
    else arr ++ listAllGo f ps (page + 1) fuel

/-- `listAll` (part_002 lines 53-65): fetch pages starting at 1. -/
def listAll (o : Option Nat) (f : Nat → List α) : List α :=
  listAllGo f (effPageSize o) 1 200

/-!
Remaining definitions: predicates used by the claim statements and concrete
data used by the witness corollaries.
-/

/-- `endsCR cs` holds when the last character is a carriage return (the one
case where appending a newline to a text merges with the existing text during
line-ending normalization). -/
def endsCR : List Char → Bool
  | [] => false
  | [c] => decide (c = '\r')
  | _ :: c :: rest => endsCR (c :: rest)

/-- All six output fields carry a value (`undefined` never escapes the
normalizers; `qty` is a number by construction). -/
def fieldsPresent (row : NormalizedRow) : Prop :=
  row.item ≠ .undefined ∧ row.serial ≠ .undefined ∧ row.expiration ≠ .undefined ∧
    row.cost ≠ .undefined ∧ row.bin ≠ .undefined

/-- Every listed alias of a raw record is missing or falsy. -/
def allAliasesFalsy (r : RawRecord) (keys : List String) : Prop :=
  ∀ k ∈ keys, truthy (r k) = false

/-- A lot record that exists but carries no data. -/
def emptyLot : LotRec := ⟨0, .undefined, .undefined, .undefined, .undefined, .undefined⟩

/-- An item record that exists but carries no data. -/
def emptyItem : ItemRec := ⟨0, .undefined, .undefined, none, none, none⟩

/-- A bin record that exists but carries no data. -/
def emptyBin : BinRec := ⟨0, .undefined⟩

/-- An inventory balance with every field absent. -/
def bal0 : InvBalance := ⟨none, none, none, none, none, none, none, none, none⟩

/-- A raw record with every key absent. -/
def undefRecord : RawRecord := fun _ => .undefined

/-- A mock endpoint that rejects the first two header schemes with
`401 "unauthorized"` and accepts the third. -/
def mockAuthResp : AuthScheme → FetchResp
  | .bearer => ⟨401, "unauthorized"⟩
  | .apiKeyHdr => ⟨401, "unauthorized"⟩
  | _ => ⟨200, ""⟩

/-- An item record whose only cost field is `LastPurchaseCost`. -/
def item1 : ItemRec := ⟨1, .undefined, .undefined, some 3, none, none⟩

/-- A mock endpoint that rejects the first scheme with `401 "unauthorized"`
and the second with a non-auth failure `500 "server error"`. -/
def mockAuthResp2 : AuthScheme → FetchResp
  | .bearer => ⟨401, "unauthorized"⟩
  | .apiKeyHdr => ⟨500, "server error"⟩
  | _ => ⟨200, ""⟩

/-!
Helper lemmas.
-/

theorem toNumber_of_falsy (v : JVal) (h : truthy v = false) : toNumber v = 0 := by
  cases v with
  | undefined => rfl
  | null => rfl
  | nan => rfl
  | str s =>
    simp only [truthy, decide_eq_false_iff_not, not_not] at h
    simp [toNumber, h]
  | num q =>
    simp only [truthy, decide_eq_false_iff_not, not_not] at h
    simp [toNumber, h]

theorem jsOr_ne_undef {a b : JVal} (hb : b ≠ .undefined) : jsOr a b ≠ .undefined := by
  unfold jsOr
  split
  · rename_i ht
    intro heq
    subst heq
    simp [truthy] at ht
  · exact hb

theorem firstCost_null_or_num (o : Option ItemRec) :
    firstCost o = .null ∨ ∃ q, firstCost o = .num q := by
  cases o with
  | none => exact .inl rfl
  | some it =>
    rcases h1 : it.LastPurchaseCost with _ | q
    · rcases h2 : it.AverageCost with _ | q
      · rcases h3 : it.StandardCost with _ | q
        · exact .inl (by simp [firstCost, h1, h2, h3])
        · exact .inr ⟨q, by simp [firstCost, h1, h2, h3]⟩
      · exact .inr ⟨q, by simp [firstCost, h1, h2]⟩
    · exact .inr ⟨q, by simp [firstCost, h1]⟩

theorem rowOf_fields_present (lot : Option LotRec) (item : Option ItemRec)
    (bin : Option BinRec) (q : Rat) : fieldsPresent (rowOf lot item bin q) := by
  refine ⟨?_, ?_, ?_, ?_, ?_⟩
  · exact jsOr_ne_undef (jsOr_ne_undef (by simp))
  · exact jsOr_ne_undef (jsOr_ne_undef (jsOr_ne_undef (by simp)))
  · exact jsOr_ne_undef (jsOr_ne_undef (by simp))
  · show firstCost item ≠ .undefined
    rcases firstCost_null_or_num item with h | ⟨q', h⟩ <;> simp [h]
  · exact jsOr_ne_undef (by simp)

theorem keepRow_some {g : Option Rat} {bp loc : Option String}
    {lots : List LotRec} {items : List ItemRec} {bins : List BinRec}
    {r : InvBalance} {row : NormalizedRow}
    (h : keepRow g bp loc lots items bins r = some row) :
    row = rowOf (lookupLot lots r) (lookupItem items r) (lookupBin bins r) (qtyOf r) := by
  unfold keepRow at h
  split at h
  · exact absurd h (by simp)
  · split at h
    · exact absurd h (by simp)
    · split at h
      · exact absurd h (by simp)
      · injection h with h
        exact h.symm

theorem otTryAuth_cons_lastText (f : AuthScheme → FetchResp) (s : AuthScheme)
    (post : List AuthScheme) (n : Nat) (lt1 lt2 : String) :
    otTryAuth f (s :: post) n lt1 = otTryAuth f (s :: post) n lt2 := rfl

theorem otTryAuth_skip_pre (f : AuthScheme → FetchResp) :
    ∀ (pre : List AuthScheme) (s : AuthScheme) (post : List AuthScheme) (n : Nat) (lt : String),
      (∀ x ∈ pre, respOk (f x) = false ∧ isAuthFailureBody (f x).body = true) →
      otTryAuth f (pre ++ s :: post) n lt = otTryAuth f (s :: post) (n + pre.length) lt := by
  intro pre
  induction pre with
  | nil =>
    intro s post n lt _
    simp
  | cons a l ih =>
    intro s post n lt hpre
    have ha := hpre a (by simp)
    rw [List.cons_append]
    show (if respOk (f a) then OtOutcome.success (n + 1) a
      else if isAuthFailureBody (f a).body then otTryAuth f (l ++ s :: post) (n + 1) (f a).body
      else .fatal (n + 1) (f a).status (f a).body) = _
    rw [if_neg (by simp [ha.1]), if_pos (by simp [ha.2]),
      ih s post (n + 1) (f a).body (fun x hx => hpre x (by simp [hx])),
      otTryAuth_cons_lastText f s post _ (f a).body lt,
      show n + 1 + l.length = n + (a :: l).length by simp; omega]

theorem replCR_append_nl (xs : List Char) : replCR (xs ++ ['\n']) = replCR xs ++ ['\n'] := by
  simp [replCR]

theorem replCRLF_append_nl : ∀ (cs : List Char), endsCR cs = false →
    replCRLF (cs ++ ['\n']) = replCRLF cs ++ ['\n'] := by
  intro cs
  induction cs using replCRLF.induct with
  | case1 => intro _; rfl
  | case2 rest ih =>
    intro h
    have hr : endsCR rest = false := by
      cases rest with
      | nil => rfl
      | cons a l => exact h
    simp only [List.cons_append]
    rw [replCRLF, replCRLF, ih hr, List.cons_append]
  | case3 c rest hcr ih =>
    intro h
    have hrest : endsCR rest = false := by
      cases rest with
      | nil => rfl
      | cons a l => exact h
    have hcond : ∀ r1, c = '\r' → rest ++ ['\n'] = '\n' :: r1 → False := by
      intro r1 hc he
      cases rest with
      | nil =>
        subst hc
        simp [endsCR] at h
      | cons a l =>
        rw [List.cons_append] at he
        injection he with h1 _
        exact hcr l hc (by rw [h1])
    simp only [List.cons_append]
    rw [replCRLF.eq_3 _ _ hcond, replCRLF.eq_3 _ _ hcr, ih hrest, List.cons_append]

theorem normNewlines_append_nl (cs : List Char) (h : endsCR cs = false) :
    normNewlines (cs ++ ['\n']) = normNewlines cs ++ ['\n'] := by
  unfold normNewlines
  rw [replCRLF_append_nl cs h, replCR_append_nl]

theorem cons_quote_append_aux (rest : List Char)
    (h : ∀ r1, rest = '"' :: r1 → False) :
    ∀ r1, rest ++ ['\n'] = '"' :: r1 → False := by
  intro r1 he
  cases rest with
  | nil =>
    rw [List.nil_append] at he
    injection he with h1 _
    exact absurd h1 (by decide)
  | cons a l =>
    rw [List.cons_append] at he
    injection he with h1 _
    exact h l (by rw [h1])

theorem splitRecs_append_nl : ∀ (cs : List Char) (buf : String) (inQ : Bool),
    finalInQ cs inQ = false →
    splitRecsAux (cs ++ ['\n']) buf inQ =
      splitRecsAux cs buf inQ ++ (if finalBuf cs buf inQ = "" then [""] else []) := by
  intro cs buf inQ
  induction cs, buf, inQ using splitRecsAux.induct with
  | case1 x =>
    intro h
    rw [finalInQ.eq_1] at h
    subst h
    decide
  | case2 buf x hb =>
    intro h
    rw [finalInQ.eq_1] at h
    subst h
    simp [splitRecsAux, finalBuf, hb]
  | case3 rest buf inQ ih =>
    intro h
    rw [finalInQ.eq_2] at h
    simp only [List.cons_append]
    rw [splitRecsAux.eq_2, splitRecsAux.eq_2, finalBuf.eq_2]
    exact ih h
  | case4 rest buf inQ h1 ih =>
    intro h
    rw [finalInQ.eq_3 _ _ h1] at h
    simp only [List.cons_append]
    rw [splitRecsAux.eq_3 _ _ _ (cons_quote_append_aux rest h1),
        splitRecsAux.eq_3 _ _ _ h1, finalBuf.eq_3 _ _ _ h1]
    exact ih h
  | case5 rest buf ih =>
    intro h
    rw [finalInQ.eq_4] at h
    simp only [List.cons_append]
    rw [splitRecsAux.eq_4, splitRecsAux.eq_4, finalBuf.eq_4]
    simp only [if_pos rfl]
    exact ih h
  | case6 rest buf inQ hq ih =>
    intro h
    have hq' : inQ = false := by
      cases inQ
      · rfl
      · exact absurd rfl hq
    subst hq'
    rw [finalInQ.eq_4] at h
    simp only [List.cons_append]
    rw [splitRecsAux.eq_4, splitRecsAux.eq_4, finalBuf.eq_4]
    simp only [Bool.false_eq_true, if_false]
    rw [ih h, List.cons_append]
  | case7 c rest buf inQ hpair hq hn ih =>
    intro h
    rw [finalInQ.eq_5 _ _ _ (fun r1 hc hr => hpair r1 hc hr) hq hn] at h
    simp only [List.cons_append]
    rw [splitRecsAux.eq_5 _ _ _ _ (fun _ hc _ => hq hc) hq hn,
        splitRecsAux.eq_5 _ _ _ _ (fun r1 hc hr => hpair r1 hc hr) hq hn,
        finalBuf.eq_5 _ _ _ _ (fun r1 hc hr => hpair r1 hc hr) hq hn]
    exact ih h

theorem rowsOfRecords_append_empty (recs : List String) :
    rowsOfRecords (recs ++ [""]) = rowsOfRecords recs := by
  cases recs with
  | nil => rfl
  | cons h t =>
    simp only [List.cons_append, rowsOfRecords, List.filterMap_append]
    simp [List.filterMap]

theorem listAllGo_first_short {α : Type} (f : Nat → List α) (ps : Nat) :
    ∀ (fuel page k : Nat), page + fuel = 201 → page ≤ k → k ≤ 200 →
      (∀ j, page ≤ j → j < k → ¬ (f j).length < ps) → (f k).length < ps →
      listAllGo f ps page fuel = ((List.range' page (k + 1 - page)).map f).flatten := by
  intro fuel
  induction fuel with
  | zero =>
    intro page k h1 h2 h3 _ _
    omega
  | succ n ih =>
    intro page k h1 h2 h3 hfull hshort
    rcases Nat.eq_or_lt_of_le h2 with heq | hlt
    · subst heq
      have hk1 : page + 1 - page = 1 := by omega
      rw [hk1, List.range'_succ]
      simp only [listAllGo, if_pos hshort, List.range'_zero, List.map_cons, List.map_nil,
        List.flatten_cons, List.flatten_nil, List.append_nil]
    · have hns : ¬ (f page).length < ps := hfull page le_rfl hlt
      have hp200 : ¬ 200 ≤ page := by omega
      have hre : k + 1 - page = (k - page) + 1 := by omega
      simp only [listAllGo, if_neg hns, if_neg hp200]
      rw [ih (page + 1) k (by omega) (by omega) h3
          (fun j hj1 hj2 => hfull j (by omega) hj2) hshort,
        show k + 1 - (page + 1) = k - page by omega,
        hre, List.range'_succ]
      simp only [List.map_cons, List.flatten_cons]

theorem listAllGo_cap {α : Type} (f : Nat → List α) (ps : Nat) :
    ∀ (fuel page : Nat), page + fuel = 201 → page ≤ 200 →
      (∀ j, page ≤ j → j ≤ 200 → ¬ (f j).length < ps) →
      listAllGo f ps page fuel = ((List.range' page (201 - page)).map f).flatten := by
  intro fuel
  induction fuel with
  | zero =>
    intro page h1 h2 _
    omega
  | succ n ih =>
    intro page h1 h2 hfull
    have hns : ¬ (f page).length < ps := hfull page le_rfl h2
    rcases Nat.eq_or_lt_of_le h2 with heq | hlt
    · subst heq
      simp only [listAllGo, if_neg hns, if_pos (le_refl 200)]
      rw [show 201 - 200 = 1 from rfl, List.range'_succ]
      simp only [List.range'_zero, List.map_cons, List.map_nil, List.flatten_cons,
        List.flatten_nil, List.append_nil]
    · have hp200 : ¬ 200 ≤ page := by omega
      simp only [listAllGo, if_neg hns, if_neg hp200]
      rw [ih (page + 1) (by omega) (by omega) (fun j hj1 hj2 => hfull j (by omega) hj2),
        show 201 - page = (201 - (page + 1)) + 1 by omega, List.range'_succ]
      simp only [List.map_cons, List.flatten_cons]

/-!
Claim theorems.
-/

/-- Claim C1: every output row of either pipeline has all six fields present
and never `undefined`: when every alias for a string field is missing or
falsy the field is the empty string, `qty` defaults to `0`, and `cost` is a
number in the report pipeline and `null` or a number in the live pipeline —
never `undefined`. -/
theorem C1_fields_always_present :
    (∀ r : RawRecord, fieldsPresent (normalizeReport r) ∧
      ∃ q, (normalizeReport r).cost = .num q) ∧
    (∀ r : RawRecord, allAliasesFalsy r ["Item", "SKU", "Item (SKU)", "Item Name", "Product"] →
      (normalizeReport r).item = .str "") ∧
    (∀ r : RawRecord,
      allAliasesFalsy r ["Lot/Serial", "LotSerial", "Serial", "IMEI", "Lot / Serial"] →
      (normalizeReport r).serial = .str "") ∧
    (∀ r : RawRecord, allAliasesFalsy r ["Expiration Date", "Expiry", "Expiration"] →
      (normalizeReport r).expiration = .str "") ∧
    (∀ r : RawRecord, allAliasesFalsy r ["Qty", "Quantity", "On Hand", "Qty On Hand"] →
      (normalizeReport r).qty = 0) ∧
    (∀ r : RawRecord, allAliasesFalsy r ["Cost", "Avg Cost", "Unit Cost"] →
      (normalizeReport r).cost = .num 0) ∧
    (∀ r : RawRecord, allAliasesFalsy r ["Bin", "Location", "Bin Location", "Loc"] →
      (normalizeReport r).bin = .str "") ∧
    (∀ (g : Option Rat) (bp loc : Option String) (lots : List LotRec)
      (items : List ItemRec) (bins : List BinRec) (balances : List InvBalance)
      (row : NormalizedRow), row ∈ buildRows g bp loc lots items bins balances →
      fieldsPresent row ∧ (row.cost = .null ∨ ∃ q, row.cost = .num q)) := by
  refine ⟨?_, ?_, ?_, ?_, ?_, ?_, ?_, ?_⟩
  · intro r
    refine ⟨⟨?_, ?_, ?_, ?_, ?_⟩, ⟨_, rfl⟩⟩
    · exact jsOr_ne_undef (jsOr_ne_undef (jsOr_ne_undef (jsOr_ne_undef (jsOr_ne_undef (by simp)))))
    · exact jsOr_ne_undef (jsOr_ne_undef (jsOr_ne_undef (jsOr_ne_undef (jsOr_ne_undef (by simp)))))
    · exact jsOr_ne_undef (jsOr_ne_undef (jsOr_ne_undef (by simp)))
    · show JVal.num _ ≠ .undefined
      simp
    · exact jsOr_ne_undef (jsOr_ne_undef (jsOr_ne_undef (jsOr_ne_undef (by simp))))
  · intro r h
    have h1 := h "Item" (by simp)
    have h2 := h "SKU" (by simp)
    have h3 := h "Item (SKU)" (by simp)
    have h4 := h "Item Name" (by simp)
    have h5 := h "Product" (by simp)
    simp [normalizeReport, jsOr, h1, h2, h3, h4, h5]
  · intro r h
    have h1 := h "Lot/Serial" (by simp)
    have h2 := h "LotSerial" (by simp)
    have h3 := h "Serial" (by simp)
    have h4 := h "IMEI" (by simp)
    have h5 := h "Lot / Serial" (by simp)
    simp [normalizeReport, jsOr, h1, h2, h3, h4, h5]
  · intro r h
    have h1 := h "Expiration Date" (by simp)
    have h2 := h "Expiry" (by simp)
    have h3 := h "Expiration" (by simp)
    simp [normalizeReport, jsOr, h1, h2, h3]
  · intro r h
    have h1 := h "Qty" (by simp)
    have h2 := h "Quantity" (by simp)
    have h3 := h "On Hand" (by simp)
    have h4 := h "Qty On Hand" (by simp)
    simp [normalizeReport, jsOr, h1, h2, h3, toNumber_of_falsy _ h4]
  · intro r h
    have h1 := h "Cost" (by simp)
    have h2 := h "Avg Cost" (by simp)
    have h3 := h "Unit Cost" (by simp)
    simp [normalizeReport, jsOr, h1, h2, toNumber_of_falsy _ h3]
  · intro r h
    have h1 := h "Bin" (by simp)
    have h2 := h "Location" (by simp)
    have h3 := h "Bin Location" (by simp)
    have h4 := h "Loc" (by simp)
    simp [normalizeReport, jsOr, h1, h2, h3, h4]
  · intro g bp loc lots items bins balances row hrow
    rw [buildRows, List.mem_filterMap] at hrow
    obtain ⟨r, _, hr⟩ := hrow
    have heq := keepRow_some hr
    subst heq
    exact ⟨rowOf_fields_present _ _ _ _, firstCost_null_or_num _⟩

theorem C1_witness :
    fieldsPresent (normalizeReport undefRecord) ∧ (normalizeReport undefRecord).item = .str "" :=
  ⟨(C1_fields_always_present.1 undefRecord).1,
    C1_fields_always_present.2.1 undefRecord (fun _ _ => rfl)⟩

/-- Claim C2: the list fetcher tries the header schemes in the fixed order
bearer token, `ApiKey`, `X-API-KEY`, `x-api-key`, then HTTP Basic only when
basic credentials are configured; at EVERY position of the try list it
advances past a scheme only when the non-success body matches an
auth-failure pattern and any other non-success response aborts immediately
with that response's status and body (stated per step for an arbitrary
remaining scheme list, and end-to-end for an arbitrary split of the try
order into auth-failing prefix and first decisive scheme); and when the
first two schemes fail with an auth-failure body and the third succeeds,
the fetcher succeeds with the third scheme after exactly three calls. -/
theorem C2_auth_scheme_fallback :
    (∀ k b : String,
      (authTries false).map (schemeHeaders k b) =
        [[("Authorization", "Bearer " ++ k), ("Content-Type", "application/json")],
         [("ApiKey", k), ("Content-Type", "application/json")],
         [("X-API-KEY", k), ("Content-Type", "application/json")],
         [("x-api-key", k), ("Content-Type", "application/json")]] ∧
      (authTries true).map (schemeHeaders k b) =
        [[("Authorization", "Bearer " ++ k), ("Content-Type", "application/json")],
         [("ApiKey", k), ("Content-Type", "application/json")],
         [("X-API-KEY", k), ("Content-Type", "application/json")],
         [("x-api-key", k), ("Content-Type", "application/json")],
         [("Authorization", "Basic " ++ b), ("Content-Type", "application/json")]]) ∧
    (∀ (cfg : Bool) (f : AuthScheme → FetchResp),
      respOk (f .bearer) = false → isAuthFailureBody (f .bearer).body = true →
      respOk (f .apiKeyHdr) = false → isAuthFailureBody (f .apiKeyHdr).body = true →
      respOk (f .xApiKeyUpper) = true →
      otListAuth cfg f = .success 3 .xApiKeyUpper) ∧
    (∀ (cfg : Bool) (f : AuthScheme → FetchResp),
      respOk (f .bearer) = false → isAuthFailureBody (f .bearer).body = false →
      otListAuth cfg f = .fatal 1 (f .bearer).status (f .bearer).body) ∧
    (∀ (f : AuthScheme → FetchResp) (s : AuthScheme) (rest : List AuthScheme)
      (n : Nat) (lt : String),
      (respOk (f s) = true → otTryAuth f (s :: rest) n lt = .success (n + 1) s) ∧
      (respOk (f s) = false → isAuthFailureBody (f s).body = true →
        otTryAuth f (s :: rest) n lt = otTryAuth f rest (n + 1) (f s).body) ∧
      (respOk (f s) = false → isAuthFailureBody (f s).body = false →
        otTryAuth f (s :: rest) n lt = .fatal (n + 1) (f s).status (f s).body)) ∧
    (∀ (cfg : Bool) (f : AuthScheme → FetchResp) (pre : List AuthScheme)
      (s : AuthScheme) (post : List AuthScheme),
      authTries cfg = pre ++ s :: post →
      (∀ x ∈ pre, respOk (f x) = false ∧ isAuthFailureBody (f x).body = true) →
      (respOk (f s) = true → otListAuth cfg f = .success (pre.length + 1) s) ∧
      (respOk (f s) = false → isAuthFailureBody (f s).body = false →
        otListAuth cfg f = .fatal (pre.length + 1) (f s).status (f s).body)) := by
  refine ⟨?_, ?_, ?_, ?_, ?_⟩
  · intro k b
    constructor <;> rfl
  · intro cfg f h1 h2 h3 h4 h5
    cases cfg <;>
      simp [otListAuth, authTries, otTryAuth, h1, h2, h3, h4, h5]
  · intro cfg f h1 h2
    cases cfg <;>
      simp [otListAuth, authTries, otTryAuth, h1, h2]
  · intro f s rest n lt
    refine ⟨?_, ?_, ?_⟩
    · intro h1
      simp [otTryAuth, h1]
    · intro h1 h2
      simp [otTryAuth, h1, h2]
    · intro h1 h2
      simp [otTryAuth, h1, h2]
  · intro cfg f pre s post heq hpre
    constructor
    · intro hok
      unfold otListAuth
      rw [heq, otTryAuth_skip_pre f pre s post 0 "" hpre]
      simp [otTryAuth, hok]
    · intro hnok hnaf
      unfold otListAuth
      rw [heq, otTryAuth_skip_pre f pre s post 0 "" hpre]
      simp [otTryAuth, hnok, hnaf]

theorem C2_witness :
    otListAuth true mockAuthResp = .success 3 .xApiKeyUpper ∧
    otListAuth false mockAuthResp2 = .fatal 2 500 "server error" :=
  ⟨C2_auth_scheme_fallback.2.1 true mockAuthResp (by decide) (by decide) (by decide)
      (by decide) (by decide),
    (C2_auth_scheme_fallback.2.2.2.2 false mockAuthResp2 [.bearer] .apiKeyHdr
      [.xApiKeyUpper, .xApiKeyLower] (by decide)
      (by intro x hx; simp at hx; subst hx; exact ⟨by decide, by decide⟩)).2
      (by decide) (by decide)⟩

/-- Claim C3: pagination fetches pages sequentially from page 1 and
terminates, stopping at the first page shorter than the requested page size
(a full page 1 followed by a short page 2 stops after page 2), and when every
page is full it stops after page 200 exactly, returning the concatenation of
all fetched pages. -/
theorem C3_pagination_termination {α : Type} :
    (∀ (f : Nat → List α) (o : Option Nat) (k : Nat), 1 ≤ k → k ≤ 200 →
      (∀ j, 1 ≤ j → j < k → (f j).length = effPageSize o) →
      (f k).length < effPageSize o →
      listAll o f = ((List.range' 1 k).map f).flatten) ∧
    (∀ (f : Nat → List α) (o : Option Nat),
      (f 1).length = effPageSize o → (f 2).length < effPageSize o →
      listAll o f = f 1 ++ f 2) ∧
    (∀ (f : Nat → List α) (o : Option Nat),
      (∀ j, 1 ≤ j → j ≤ 200 → (f j).length = effPageSize o) →
      listAll o f = ((List.range' 1 200).map f).flatten) := by
  refine ⟨?_, ?_, ?_⟩
  · intro f o k hk1 hk2 hfull hshort
    have h := listAllGo_first_short f (effPageSize o) 200 1 k (by omega) hk1 hk2
      (fun j hj1 hj2 => by rw [hfull j hj1 hj2]; exact Nat.lt_irrefl _) hshort
    rw [show k + 1 - 1 = k by omega] at h
    exact h
  · intro f o h1 h2
    have h := listAllGo_first_short f (effPageSize o) 200 1 2 (by omega) (by omega) (by omega)
      (fun j hj1 hj2 => by
        have : j = 1 := by omega
        subst this
        rw [h1]
        exact Nat.lt_irrefl _) h2
    rw [show 2 + 1 - 1 = 2 from rfl, List.range'_succ, List.range'_succ] at h
    simpa using h
  · intro f o hfull
    exact listAllGo_cap f (effPageSize o) 200 1 (by omega) (by omega)
      (fun j hj1 hj2 => by rw [hfull j hj1 hj2]; exact Nat.lt_irrefl _)

theorem C3_witness :
    listAll (some 2) (fun p => if p = 1 then [0, 0] else [7]) =
      (fun p => if p = 1 then ([0, 0] : List Nat) else [7]) 1 ++
      (fun p => if p = 1 then ([0, 0] : List Nat) else [7]) 2 :=
  C3_pagination_termination.2.1 (fun p => if p = 1 then [0, 0] else [7]) (some 2)
    (by decide) (by decide)

/-- Claim C4 (evaluation at the failing input): the record-splitting pass of
`parseCsvToObjects` drops the second character of every doubled quote, so the
spec's round-trip example `"a,""b"""` parses to `a,b` instead of the claimed
`a,"b"` — while a quoted field spanning two lines does parse as one record.
This theorem evaluates the parser at both inputs, exhibiting the divergence
on the first and the claimed behavior on the second. -/
theorem C4_doubled_quote_mangled :
    parseCsvToObjects "A\n\"a,\"\"b\"\"\"" = [[("A", "a,b")]] ∧
    parseCsvToObjects "A\n\"a,\"\"b\"\"\"" ≠ [[("A", "a,\"b\"")]] ∧
    parseCsvToObjects "A\n\"x\ny\"" = [[("A", "x\ny")]] := by
  refine ⟨by decide, by decide, by decide⟩

/-- Claim C5: `toNumber` strips commas and spaces, parses the rest as a
number, returns the parsed value when finite and `0` for undefined, null, the
empty string or a non-finite parse; in particular
`toNumber("1,234") = 1234`, `toNumber("") = 0`, `toNumber("abc") = 0`,
`toNumber(null) = 0`. -/
theorem C5_toNumber_coercion :
    toNumber (.str "1,234") = 1234 ∧ toNumber (.str "") = 0 ∧
    toNumber (.str "abc") = 0 ∧ toNumber .null = 0 ∧ toNumber .undefined = 0 ∧
    (∀ s : String, jsParseNumber (stripCS s) = none → toNumber (.str s) = 0) ∧
    (∀ (s : String) (q : Rat), jsParseNumber (stripCS s) = some q →
      toNumber (.str s) = q) := by
  refine ⟨by decide, by decide, by decide, rfl, rfl, ?_, ?_⟩
  · intro s h
    by_cases hs : s = ""
    · simp [toNumber, hs]
    · simp [toNumber, hs, h]
  · intro s q h
    by_cases hs : s = ""
    · subst hs
      have h0 : jsParseNumber (stripCS "") = some 0 := by decide
      rw [h0] at h
      exact Option.some.inj h
    · simp [toNumber, hs, h]

theorem C5_witness :
    jsParseNumber (stripCS "abc") = none ∧ toNumber (.str "abc") = 0 :=
  ⟨by decide, C5_toNumber_coercion.2.2.2.2.2.1 "abc" (by decide)⟩

/-- Claim C6: a balance whose lot (or item, or bin) foreign key misses the
corresponding index joins against a null entity, every field contributed by
that entity degrades to the empty string (and `cost` to `null` for a missing
item) without error, and the row is identical to the one built from an
existing entity carrying no data; the other fields and the quantity are
unaffected. -/
theorem C6_missing_fk_join :
    (∀ (lots : List LotRec) (r : InvBalance) (id : Rat),
      resolveLotId r = some id → id ≠ 0 → jsMapGet (lotIndex lots) id = none →
      lookupLot lots r = none) ∧
    (∀ (item : Option ItemRec) (bin : Option BinRec) (q : Rat),
      (rowOf none item bin q).serial = .str "" ∧
      (rowOf none item bin q).expiration = .str "" ∧
      rowOf none item bin q = rowOf (some emptyLot) item bin q) ∧
    (∀ (lot : Option LotRec) (bin : Option BinRec) (q : Rat),
      (rowOf lot none bin q).item = .str "" ∧ (rowOf lot none bin q).cost = .null ∧
      rowOf lot none bin q = rowOf lot (some emptyItem) bin q) ∧
    (∀ (lot : Option LotRec) (item : Option ItemRec) (q : Rat),
      (rowOf lot item none q).bin = .str "" ∧
      rowOf lot item none q = rowOf lot item (some emptyBin) q) := by
  refine ⟨?_, ?_, ?_, ?_⟩
  · intro lots r id hid hnz hget
    unfold lookupLot lookupByTruthyId
    rw [hid]
    simp [hnz, hget]
  · intro item bin q
    exact ⟨rfl, rfl, rfl⟩
  · intro lot bin q
    exact ⟨rfl, rfl, rfl⟩
  · intro lot item q
    exact ⟨rfl, rfl⟩

theorem C6_witness :
    lookupLot [] { bal0 with LotOrSerialRefId := some 1 } = none :=
  C6_missing_fk_join.1 [] { bal0 with LotOrSerialRefId := some 1 } 1 rfl
    (by norm_num) rfl

/-- Claim C7: the live pipeline resolves the cost of a row by probing the
joined item's fields in the fixed order `LastPurchaseCost`, `AverageCost`,
`StandardCost`, returning the first present value, and `null` when the item
is missing or no candidate field is present; every built row's cost is
exactly this resolution. -/
theorem C7_cost_probe_order :
    firstCost none = .null ∧
    (∀ (it : ItemRec) (q : Rat), it.LastPurchaseCost = some q →
      firstCost (some it) = .num q) ∧
    (∀ (it : ItemRec) (q : Rat), it.LastPurchaseCost = none → it.AverageCost = some q →
      firstCost (some it) = .num q) ∧
    (∀ (it : ItemRec) (q : Rat), it.LastPurchaseCost = none → it.AverageCost = none →
      it.StandardCost = some q → firstCost (some it) = .num q) ∧
    (∀ it : ItemRec, it.LastPurchaseCost = none → it.AverageCost = none →
      it.StandardCost = none → firstCost (some it) = .null) ∧
    (∀ (lot : Option LotRec) (item : Option ItemRec) (bin : Option BinRec) (q : Rat),
      (rowOf lot item bin q).cost = firstCost item) := by
  refine ⟨rfl, ?_, ?_, ?_, ?_, ?_⟩
  · intro it q h
    simp [firstCost, h]
  · intro it q h1 h2
    simp [firstCost, h1, h2]
  · intro it q h1 h2 h3
    simp [firstCost, h1, h2, h3]
  · intro it h1 h2 h3
    simp [firstCost, h1, h2, h3]
  · intro lot item bin q
    rfl

theorem C7_witness : firstCost (some item1) = .num 3 :=
  C7_cost_probe_order.2.1 item1 3 rfl

/-- Claim C8: the quantity filter is a strict greater-than threshold: a
balance is dropped exactly when its resolved quantity is at most `qtygt`
(so quantity 5 is dropped and 6 kept at threshold 5), and the threshold
defaults to 0 when the query parameter is absent, excluding zero-quantity
rows by default. -/
theorem C8_strict_qty_threshold :
    (∀ (t : Rat) (bp loc : Option String) (lots : List LotRec) (items : List ItemRec)
      (bins : List BinRec) (r : InvBalance), qtyOf r ≤ t →
      keepRow (some t) bp loc lots items bins r = none) ∧
    (∀ (t : Rat) (lots : List LotRec) (items : List ItemRec) (bins : List BinRec)
      (r : InvBalance), t < qtyOf r →
      keepRow (some t) none none lots items bins r =
        some (rowOf (lookupLot lots r) (lookupItem items r) (lookupBin bins r) (qtyOf r))) ∧
    qtygtOf none = some 0 := by
  refine ⟨?_, ?_, by decide⟩
  · intro t bp loc lots items bins r h
    have h1 : jsLeOpt (qtyOf r) (some t) = true := by
      simp [jsLeOpt, h]
    simp [keepRow, h1]
  · intro t lots items bins r h
    have h1 : jsLeOpt (qtyOf r) (some t) = false := by
      simp [jsLeOpt]
      exact h
    have h2 : binPfxExcludes none
        (rowOf (lookupLot lots r) (lookupItem items r) (lookupBin bins r) (qtyOf r)).bin
        = false := rfl
    have h3 : locExcludes none r = false := rfl
    simp [keepRow, h1, h2, h3]

theorem C8_witness :
    keepRow (some 5) none none [] [] [] { bal0 with OnHand := some 5 } = none ∧
    keepRow (some 5) none none [] [] [] { bal0 with OnHand := some 6 } =
      some (rowOf (lookupLot [] { bal0 with OnHand := some 6 })
        (lookupItem [] { bal0 with OnHand := some 6 })
        (lookupBin [] { bal0 with OnHand := some 6 })
        (qtyOf { bal0 with OnHand := some 6 })) :=
  ⟨C8_strict_qty_threshold.1 5 none none [] [] [] { bal0 with OnHand := some 5 } (by decide),
    C8_strict_qty_threshold.2.1 5 [] [] [] { bal0 with OnHand := some 6 } (by decide)⟩

/-- Claim C9: appending a final newline never changes the parse, so input
text without a trailing newline still yields a record for its trailing
characters (provided the text does not end inside an open quote and does not
end in a bare carriage return, where the appended newline would merge into a
CRLF). -/
theorem C9_trailing_record (text : String)
    (hcr : endsCR text.data = false)
    (hq : finalInQ (normNewlines text.data) false = false) :
    parseCsvToObjects (text ++ "\n") = parseCsvToObjects text := by
  unfold parseCsvToObjects
  have hdata : (text ++ "\n").data = text.data ++ ['\n'] := by
    rw [String.data_append]
  rw [hdata, normNewlines_append_nl text.data hcr,
    splitRecs_append_nl _ "" false hq]
  by_cases hb : finalBuf (normNewlines text.data) "" false = ""
  · rw [if_pos hb, rowsOfRecords_append_empty]
  · rw [if_neg hb, List.append_nil]

theorem C9_witness :
    endsCR "A,B\nx,y".data = false ∧
    finalInQ (normNewlines "A,B\nx,y".data) false = false ∧
    parseCsvToObjects ("A,B\nx,y" ++ "\n") = parseCsvToObjects "A,B\nx,y" :=
  ⟨by decide, by decide, C9_trailing_record "A,B\nx,y" (by decide) (by decide)⟩

/-- Claim C10: when `binPrefix` is set, the prefix filter never drops a row
whose resolved bin value is the empty string — it drops only rows with a
truthy (non-empty) bin value that does not start with the prefix — so a
balance with a missing or unresolvable bin passes the filter. -/
theorem C10_binPfx_empty_bin_passes :
    (∀ p : String, binPfxExcludes (some p) (.str "") = false) ∧
    (∀ (bp : Option String) (v : JVal), binPfxExcludes bp v = true →
      truthy v = true ∧ v ≠ .str "") ∧
    (∀ (t : Rat) (p : String) (lots : List LotRec) (items : List ItemRec)
      (bins : List BinRec) (r : InvBalance), t < qtyOf r →
      (rowOf (lookupLot lots r) (lookupItem items r) (lookupBin bins r) (qtyOf r)).bin
        = .str "" →
      keepRow (some t) (some p) none lots items bins r =
        some (rowOf (lookupLot lots r) (lookupItem items r) (lookupBin bins r) (qtyOf r))) := by
  refine ⟨?_, ?_, ?_⟩
  · intro p
    simp [binPfxExcludes, truthy]
  · intro bp v h
    cases bp with
    | none => simp [binPfxExcludes] at h
    | some p =>
      simp only [binPfxExcludes, Bool.and_eq_true] at h
      refine ⟨h.1.2, ?_⟩
      intro hv
      rw [hv] at h
      simp [truthy] at h
  · intro t p lots items bins r hqty hbin
    have h1 : jsLeOpt (qtyOf r) (some t) = false := by
      simp [jsLeOpt]
      exact hqty
    have h2 : binPfxExcludes (some p)
        (rowOf (lookupLot lots r) (lookupItem items r) (lookupBin bins r) (qtyOf r)).bin
        = false := by
      rw [hbin]
      simp [binPfxExcludes, truthy]
    have h3 : locExcludes none r = false := rfl
    simp [keepRow, h1, h2, h3]

theorem C10_witness :
    keepRow (some 0) (some "C-") none [] [] [] { bal0 with OnHand := some 1 } =
      some (rowOf (lookupLot [] { bal0 with OnHand := some 1 })
        (lookupItem [] { bal0 with OnHand := some 1 })
        (lookupBin [] { bal0 with OnHand := some 1 })
        (qtyOf { bal0 with OnHand := some 1 })) :=
  C10_binPfx_empty_bin_passes.2.2 0 "C-" [] [] [] { bal0 with OnHand := some 1 }
    (by decide) (by decide)
